import Mathlib

/-!
Verification development for the llm-mom watcher/registry core
(`src/mom/lib/mom.py`, `src/mom/lib/tmuxctl.py`, configuration in
`src/mom/config.py`).

The Python code is embedded shallowly:

* The `Watcher.run` loop is modelled as a small-step machine over an
  explicit `WatcherState`.  Each step consumes a `StepInput` carrying
  whatever the environment supplies at that moment (the clock value,
  the pane-capture result, the wait-command output, the decision
  service's structured answer); side effects on the pane are returned
  as an explicit `PaneAction` list.
* Machine floats (`time.time()` values, thresholds) are modelled as
  rationals; only order and subtraction matter to the code being
  verified.
* Python `dict`s (insertion-ordered, unique keys) are modelled as
  association lists with insertion-order update semantics.
* Fallible lookups (`d[k]` raising `KeyError`) are modelled with
  `Except String`.
-/

/-- Python list slicing `xs[-n:]` for a nonnegative `n`: the last `n`
elements, except that `xs[-0:]` is the whole list. -/
def pySliceLast (n : ℕ) (xs : List α) : List α :=
  if n = 0 then xs else xs.drop (xs.length - n)

/-- Roles of transcript entries, the closed set used by `mom.py`
(`plan`, `status`, `wait_output`, `idle_spin`, `injection`, `decision`). -/
inductive Role where
  | plan
  | status
  | wait_output
  | idle_spin
  | injection
  | decision
  deriving DecidableEq, Repr

/-- The `TranscriptEntry` dataclass: role, text and timestamp. -/
structure TranscriptEntry where
  role : Role
  text : String
  ts : ℚ
  deriving DecidableEq, Repr

/-- The `WaitAfterReport` event: optional bash wait command. -/
structure WaitAfterReport where
  bash_wait : Option String
  deriving DecidableEq, Repr

/-- Alias `Event = WaitAfterReport`. -/
abbrev Event := WaitAfterReport

/-- The fields of the `CEnv` settings object (`config.py`) that the
watcher/registry core reads. -/
structure CEnv where
  POLL_SECS : ℚ
  TAIL_LINES : ℕ
  MAX_TRANSCRIPT : ℕ
  DEFAULT_WAIT_SEC : ℚ
  IDLE_THRESHOLD : ℚ
  IDLE_SPIN_POLL_SECS : ℚ
  INJECT_PRESS_ENTER : Bool
  deriving DecidableEq, Repr

/-- The action of an assessment decision, `Literal["stop", "continue"]`
(shape shown by the in-repo tests that construct `AssessOut`; `cont`
stands for the string "continue"). -/
inductive AssessAction where
  | stop
  | cont
  deriving DecidableEq, Repr

/-- Structure `AssessOut`: structured result of the assessment decision service,
an action tag plus an optional injection prompt, as constructed in
`src/mom/tests/conftest.py`. -/
structure AssessOut where
  action : AssessAction
  injection_prompt : Option String
  deriving DecidableEq, Repr

/-- Structure `NextStep`: structured result of the directive-mode agent used by
`Watcher.pause`, as constructed in the in-repo tests. -/
structure NextStep where
  injection_prompt : String
  achieved : Bool
  deriving DecidableEq, Repr

/-- Result of one `pane.capture_pane()` call: `err` models the call
raising, `ok lines` models it returning (`none` models Python `None`,
which `or []` turns into the empty list). -/
inductive Capture where
  | err
  | ok (lines : Option (List String))
  deriving DecidableEq, Repr

/-- Function `TmuxCtl.tail`: join the last `n` captured lines; any exception from
`capture_pane` is caught and yields the empty string. -/
def tmuxTail (cap : Capture) (n : ℕ) : String :=
  match cap with
  | .err => ""
  | .ok lines => String.intercalate "\n" (pySliceLast n (lines.getD []))

/-- Two-decimal rendering of a rational, standing in for Python's
`f"...:.2f"` formatting of the float durations that appear in
transcript texts. -/
def fmt2 (q : ℚ) : String :=
  let cents : ℤ := ⌊q * 100⌋
  let sign := if cents < 0 then "-" else ""
  let n := cents.natAbs
  sign ++ toString (n / 100) ++ "." ++ (if n % 100 < 10 then "0" else "") ++ toString (n % 100)

/-- The control position of the `Watcher.run` loop.  `idle` is blocked
on the event queue; `waiting`, `settling` and `deciding` are the
successive steps of one cycle (the settling and deciding phases carry
the cycle's wait output); `stopped` means the loop has exited. -/
inductive Phase where
  | idle
  | waiting (ev : Event)
  | settling (wait_output : String)
  | deciding (wait_output : String)
  | stopped
  deriving DecidableEq, Repr

/-- Observable side effects of one step: `send_keys` calls on the pane. -/
inductive PaneAction where
  | sendKeys (text : String) (enter : Bool)
  deriving DecidableEq, Repr

/-- The mutable state of one `Watcher` (thread object fields plus the
loop's control position). -/
structure WatcherState where
  name : String
  strategy_plan : String
  paused : Bool
  /-- Models `_stop_event` (a `threading.Event`): set once `stop()` is called. -/
  stopRequested : Bool
  transcript : List TranscriptEntry
  latest_status : String
  latest_injection : Option NextStep
  /-- the `events` queue contents, front first. -/
  events : List Event
  last_snapshot : String
  last_change_ts : ℚ
  phase : Phase
  /-- whether `start()` has been called on the thread. -/
  started : Bool
  deriving DecidableEq, Repr

/-- Everything the environment supplies during one step of the loop:
the clock, the pane capture result, the wait command's combined
stdout/stderr, and the decision service's answer.  A step that does not
consult one of these simply ignores it. -/
structure StepInput where
  now : ℚ
  capture : Capture
  waitOutput : String
  assess : AssessOut
  deriving DecidableEq, Repr

namespace Watcher

/-- Constructor `Watcher.__init__`: fresh state bound to a plan, transcript seeded
with one `plan` entry. -/
def init (name : String) (strategy_plan : String) (now : ℚ) : WatcherState :=
  { name := name
    strategy_plan := strategy_plan
    paused := false
    stopRequested := false
    transcript := [⟨.plan, strategy_plan, now⟩]
    latest_status := ""
    latest_injection := none
    events := []
    last_snapshot := ""
    last_change_ts := now
    phase := .idle
    started := false }

/-- Method `Watcher.stop`: set the stop event. -/
def stop (w : WatcherState) : WatcherState :=
  { w with stopRequested := true }

/-- Method `Watcher.clear` simply delegates to `stop`. -/
def clear (w : WatcherState) : WatcherState :=
  stop w

/-- Method `Watcher.update_plan`: replace the goal text and append a `plan`
entry (no trimming here). -/
def update_plan (strategy_plan : String) (now : ℚ) (w : WatcherState) : WatcherState :=
  { w with
    strategy_plan := strategy_plan
    transcript := w.transcript ++ [⟨.plan, strategy_plan, now⟩] }

/-- Method `Watcher.add_status`: record the report, append a `status` entry,
then trim with `transcript[-MAX_TRANSCRIPT:]` if the length exceeds the
cap. -/
def add_status (cfg : CEnv) (status_report : String) (now : ℚ) (w : WatcherState) : WatcherState :=
  let t := w.transcript ++ [⟨.status, status_report, now⟩]
  { w with
    latest_status := status_report
    transcript := if cfg.MAX_TRANSCRIPT < t.length then pySliceLast cfg.MAX_TRANSCRIPT t else t }

/-- Method `Watcher.pause`: mark paused, record the synthesized next step (the
directive-mode agent's answer is an input here) and append an
`injection` entry. -/
def pause (next_step : NextStep) (now : ℚ) (w : WatcherState) : NextStep × WatcherState :=
  (next_step,
    { w with
      paused := true
      latest_injection := some next_step
      transcript := w.transcript ++
        [⟨.injection,
          "achieved=" ++ (if next_step.achieved then "True" else "False") ++ "; " ++
            next_step.injection_prompt,
          now⟩] })

/-- Method `Watcher._do_wait`: with a truthy bash command, return its combined
stdout/stderr (supplied by the environment); otherwise sleep the default
duration and return the synthesized sleep description. -/
def do_wait (cfg : CEnv) (i : StepInput) (bash_wait : Option String) : String :=
  if bash_wait.getD "" = "" then "[sleep] " ++ fmt2 cfg.DEFAULT_WAIT_SEC ++ "s"
  else i.waitOutput

/-- Method `Watcher._update_idle`: capture the pane tail and, on any
difference from the stored snapshot, replace the snapshot and reset the
last-change timestamp to now. -/
def update_idle (cfg : CEnv) (i : StepInput) (w : WatcherState) : WatcherState :=
  let snap := tmuxTail i.capture cfg.TAIL_LINES
  if snap ≠ w.last_snapshot then
    { w with last_snapshot := snap, last_change_ts := i.now }
  else w

/-- Property `Watcher.idle_for`: seconds since the last observed change. -/
def idle_for (now : ℚ) (w : WatcherState) : ℚ :=
  now - w.last_change_ts

/-- Method `Watcher._assess`, reduced to its decision: `None` when the action
is "stop", otherwise the (optional) injection prompt.  The prompt text
sent to the service does not influence this model; the service's
structured answer is an input. -/
def assess (i : StepInput) : Option String :=
  match i.assess.action with
  | .stop => none
  | .cont => i.assess.injection_prompt

/-- One step of the `Watcher.run` loop:

* `idle`: check the stop event; if set, exit the loop.  Otherwise
  `events.get(timeout=POLL_SECS)`: an empty queue is a timeout (the loop
  comes back to the stop check), a nonempty queue dequeues into the cycle.
* `waiting`: run the wait step, append its output as a `wait_output`
  entry.
* `settling`: one iteration of `_spin_until_idle`: update idle tracking,
  exit the spin (appending the single `idle_spin` entry) once
  `idle_for ≥ IDLE_THRESHOLD`, else sleep and spin again.
* `deciding`: consult the decision service; `None` marks the watcher
  paused and appends a `decision`/"stop" entry; a string is sent to the
  pane with `send_keys` and recorded as an `injection` entry followed by a
  `decision`/"continue" entry.
* `stopped`: terminal.

No step other than the `idle` one reads the stop event, and no step at
all reads `paused`. -/
def step (cfg : CEnv) (i : StepInput) (w : WatcherState) : WatcherState × List PaneAction :=
  match w.phase with
  | .stopped => (w, [])
  | .idle =>
    if w.stopRequested then ({ w with phase := .stopped }, [])
    else
      match w.events with
      | [] => (w, [])
      | ev :: rest => ({ w with events := rest, phase := .waiting ev }, [])
  | .waiting ev =>
    let out := do_wait cfg i ev.bash_wait
    ({ w with
        transcript := w.transcript ++ [⟨.wait_output, out, i.now⟩]
        phase := .settling out }, [])
  | .settling out =>
    let w' := update_idle cfg i w
    if cfg.IDLE_THRESHOLD ≤ idle_for i.now w' then
      ({ w' with
          transcript := w'.transcript ++
            [⟨.idle_spin, "idle_for=" ++ fmt2 (idle_for i.now w'), i.now⟩]
          phase := .deciding out }, [])
    else ({ w' with phase := .settling out }, [])
  | .deciding _ =>
    match assess i with
    | none =>
      ({ w with
          paused := true
          transcript := w.transcript ++ [⟨.decision, "stop", i.now⟩]
          phase := .idle }, [])
    | some cmd =>
      ({ w with
          transcript := w.transcript ++
            [⟨.injection, cmd, i.now⟩, ⟨.decision, "continue", i.now⟩]
          phase := .idle },
        [.sendKeys cmd cfg.INJECT_PRESS_ENTER])

end Watcher

/-! ## Python `dict` as an insertion-ordered association list -/

/-- Lookup, as in `d.get(k)` and `k in d`. -/
def dictGet (d : List (String × α)) (k : String) : Option α :=
  match d with
  | [] => none
  | (k', v) :: rest => if k' = k then some v else dictGet rest k

/-- Assignment `d[k] = v`: update in place when the key exists (keeping its
position), otherwise append at the end. -/
def dictSet (d : List (String × α)) (k : String) (v : α) : List (String × α) :=
  match d with
  | [] => [(k, v)]
  | (k', v') :: rest => if k' = k then (k, v) :: rest else (k', v') :: dictSet rest k v

/-- Removal half of `d.pop(k, None)` restricted to the removal: drop the first binding
of `k`. -/
def dictRemove (d : List (String × α)) (k : String) : List (String × α) :=
  match d with
  | [] => []
  | (k', v') :: rest => if k' = k then rest else (k', v') :: dictRemove rest k

/-- The `Mom` registry's mutable state: the session-key → Watcher
mapping and the auxiliary client-id → last-active-window mapping. -/
structure MomState where
  watchers : List (String × WatcherState)
  last_by_client : List (String × String)
  deriving DecidableEq, Repr

namespace Mom

/-- Method `Mom.set_active_for_client`: record the window for a truthy client
id. -/
def set_active_for_client (client_id : Option String) (tmux_window : String)
    (m : MomState) : MomState :=
  if client_id.getD "" = "" then m
  else { m with last_by_client := dictSet m.last_by_client (client_id.getD "") tmux_window }

/-- Method `Mom._resolve_window`: explicit (truthy) window wins; else a truthy
client id with a remembered window; else the first registered watcher
key; else `KeyError("No watcher exists yet.")`. -/
def resolve_window (m : MomState) (client_id : Option String)
    (tmux_window : Option String) : Except String String :=
  if tmux_window.getD "" ≠ "" then .ok (tmux_window.getD "")
  else
    match (if client_id.getD "" = "" then none else dictGet m.last_by_client (client_id.getD "")) with
    | some win => .ok win
    | none =>
      match m.watchers with
      | (k, _) :: _ => .ok k
      | [] => .error "No watcher exists yet."

/-- Method `Mom.watch_me`: update the plan of an existing watcher in place and
answer "updated"; otherwise construct a fresh watcher for the window,
start its loop, and answer "watching". -/
def watch_me (tmux_window strategy_plan : String) (now : ℚ) (m : MomState) :
    String × MomState :=
  match dictGet m.watchers tmux_window with
  | some w =>
    ("updated",
      { m with watchers := dictSet m.watchers tmux_window (Watcher.update_plan strategy_plan now w) })
  | none =>
    let w := { Watcher.init tmux_window strategy_plan now with started := true }
    ("watching", { m with watchers := dictSet m.watchers tmux_window w })

/-- Method `Mom.pause`: `self.watchers[tmux_window]` (raising `KeyError` when
absent) then `Watcher.pause`. -/
def pause (tmux_window : String) (next_step : NextStep) (now : ℚ) (m : MomState) :
    Except String (NextStep × MomState) :=
  match dictGet m.watchers tmux_window with
  | none => .error ("KeyError: " ++ tmux_window)
  | some w =>
    let (ns, w') := Watcher.pause next_step now w
    .ok (ns, { m with watchers := dictSet m.watchers tmux_window w' })

/-- Method `Mom.clear`: pop the watcher; "noop" when absent, otherwise signal
it to stop and answer "cleared".  The signalled (now removed) watcher is
returned so its state can be observed. -/
def clear (tmux_window : String) (m : MomState) :
    String × MomState × Option WatcherState :=
  match dictGet m.watchers tmux_window with
  | none => ("noop", m, none)
  | some w =>
    ("cleared", { m with watchers := dictRemove m.watchers tmux_window },
      some (Watcher.clear w))

/-- Method `Mom.look_ma`: resolve the window, look the watcher up (a missing
key raises `KeyError`), record the status report and enqueue a
`WaitAfterReport` trigger event. -/
def look_ma (cfg : CEnv) (client_id : Option String) (status_report : String)
    (tmux_window : Option String) (bash_wait : Option String) (now : ℚ)
    (m : MomState) : Except String (String × MomState) :=
  match resolve_window m client_id tmux_window with
  | .error e => .error e
  | .ok key =>
    match dictGet m.watchers key with
    | none => .error ("KeyError: " ++ key)
    | some w =>
      let w' := Watcher.add_status cfg status_report now w
      let w'' := { w' with events := w'.events ++ [⟨bash_wait⟩] }
      .ok ("recorded+waiting", { m with watchers := dictSet m.watchers key w'' })

end Mom

/-! ## Concrete fixtures for the closed evaluations -/

/-- A configuration with the shipped default thresholds (cap 200,
idle threshold 3 seconds, Enter pressed on injection). -/
def cfgEx : CEnv :=
  { POLL_SECS := 4/5
    TAIL_LINES := 160
    MAX_TRANSCRIPT := 200
    DEFAULT_WAIT_SEC := 10
    IDLE_THRESHOLD := 3
    IDLE_SPIN_POLL_SECS := 1/5
    INJECT_PRESS_ENTER := true }

/-- A configuration whose transcript cap is 2, to exercise trimming on
tiny transcripts. -/
def cfgCap2 : CEnv :=
  { cfgEx with MAX_TRANSCRIPT := 2 }

/-- A watcher parked in the deciding phase of a cycle. -/
def wDecidingEx : WatcherState :=
  { Watcher.init "w" "goal" 0 with phase := .deciding "out" }

/-- Step input carrying a continue decision whose command is the empty
string. -/
def inpContinueEmpty : StepInput :=
  { now := 5
    capture := .ok (some ["line"])
    waitOutput := "out"
    assess := { action := .cont, injection_prompt := some "" } }

/-- Step input carrying a stop decision. -/
def inpStop : StepInput :=
  { now := 5
    capture := .ok (some ["line"])
    waitOutput := "out"
    assess := { action := .stop, injection_prompt := none } }

/-- C1 (counterexample).  A continue decision with the empty-string
command does not produce zero send_keys calls and a missing-command
entry: the step performs one send_keys call with the empty text and
records a plain decision/"continue" entry. -/
theorem c1_counterexample :
    (Watcher.step cfgEx inpContinueEmpty wDecidingEx).2 =
      [PaneAction.sendKeys "" true] ∧
    (Watcher.step cfgEx inpContinueEmpty wDecidingEx).1.transcript =
      wDecidingEx.transcript ++
        [⟨.injection, "", 5⟩, ⟨.decision, "continue", 5⟩] := by
  constructor <;> rfl

/-- C1 (amended).  In a deciding step whose decision is continue with
the empty-string command, the watcher performs exactly one send_keys
call (with the empty text), appends an injection entry for the empty
command followed by a decision/"continue" entry, leaves `paused`
untouched, and returns to the idle phase; no missing-command marker is
recorded and the cycle is not a stop. -/
theorem c1_empty_command_injects (cfg : CEnv) (i : StepInput) (w : WatcherState)
    (out : String) (hp : w.phase = .deciding out)
    (ha : i.assess = ⟨.cont, some ""⟩) :
    Watcher.step cfg i w =
      ({ w with
          transcript := w.transcript ++
            [⟨.injection, "", i.now⟩, ⟨.decision, "continue", i.now⟩]
          phase := .idle },
        [PaneAction.sendKeys "" cfg.INJECT_PRESS_ENTER]) := by
  simp [Watcher.step, hp, Watcher.assess, ha]

/-- C1 (witness): the amended statement evaluated on the concrete
deciding-phase fixture. -/
theorem c1_witness :
    Watcher.step cfgEx inpContinueEmpty wDecidingEx =
      ({ wDecidingEx with
          transcript := wDecidingEx.transcript ++
            [⟨.injection, "", 5⟩, ⟨.decision, "continue", 5⟩]
          phase := .idle },
        [PaneAction.sendKeys "" true]) :=
  c1_empty_command_injects cfgEx inpContinueEmpty wDecidingEx "out" rfl rfl

/-- C7.  Within a cycle, the waiting and settling steps perform no
send_keys calls, and a deciding step whose decision has the "stop"
action performs no send_keys call, marks the watcher paused, appends
exactly one decision/"stop" entry, and returns to the idle phase. -/
theorem c7_stop_decision (cfg : CEnv) (i : StepInput) (w : WatcherState) :
    (∀ ev, w.phase = .waiting ev → (Watcher.step cfg i w).2 = []) ∧
    (∀ out, w.phase = .settling out → (Watcher.step cfg i w).2 = []) ∧
    (∀ out, w.phase = .deciding out → i.assess.action = .stop →
      Watcher.step cfg i w =
        ({ w with
            paused := true
            transcript := w.transcript ++ [⟨.decision, "stop", i.now⟩]
            phase := .idle }, [])) := by
  refine ⟨fun ev hp => ?_, fun out hp => ?_, fun out hp ha => ?_⟩
  · simp [Watcher.step, hp]
  · simp only [Watcher.step, hp]
    split <;> rfl
  · simp [Watcher.step, hp, Watcher.assess, ha]

/-- C7 (witness): the stop decision evaluated on the concrete
deciding-phase fixture. -/
theorem c7_witness :
    Watcher.step cfgEx inpStop wDecidingEx =
      ({ wDecidingEx with
          paused := true
          transcript := wDecidingEx.transcript ++ [⟨.decision, "stop", 5⟩]
          phase := .idle }, []) :=
  (c7_stop_decision cfgEx inpStop wDecidingEx).2.2 "out" rfl rfl

/-- A watcher in the settling phase that already has a stop request
pending and whose stored snapshot matches the pane content. -/
def wSettlingStopEx : WatcherState :=
  { Watcher.init "w" "goal" 0 with
      phase := .settling "out"
      stopRequested := true
      last_snapshot := "line" }

/-- Step input whose pane capture matches the stored snapshot and whose
decision is continue with the command "go". -/
def inpGo : StepInput :=
  { now := 5
    capture := .ok (some ["line"])
    waitOutput := "out"
    assess := { action := .cont, injection_prompt := some "go" } }

/-- Helper: let-free unfolding of `Watcher.update_idle`. -/
theorem update_idle_eq (cfg : CEnv) (i : StepInput) (w : WatcherState) :
    Watcher.update_idle cfg i w =
      if tmuxTail i.capture cfg.TAIL_LINES ≠ w.last_snapshot then
        { w with
            last_snapshot := tmuxTail i.capture cfg.TAIL_LINES
            last_change_ts := i.now }
      else w := rfl

/-- Helper: a settling step whose idle threshold is met exits the spin,
appending the single idle-spin diagnostic entry and moving to the
deciding phase. -/
theorem step_settling_exit (cfg : CEnv) (i : StepInput) (w : WatcherState) (out : String)
    (hp : w.phase = .settling out)
    (h : cfg.IDLE_THRESHOLD ≤ Watcher.idle_for i.now (Watcher.update_idle cfg i w)) :
    Watcher.step cfg i w =
      ({ Watcher.update_idle cfg i w with
          transcript := (Watcher.update_idle cfg i w).transcript ++
            [⟨.idle_spin,
              "idle_for=" ++ fmt2 (Watcher.idle_for i.now (Watcher.update_idle cfg i w)),
              i.now⟩]
          phase := .deciding out }, []) := by
  simp [Watcher.step, hp, h]

/-- Helper: a settling step below the idle threshold stays in the spin,
appending nothing. -/
theorem step_settling_spin (cfg : CEnv) (i : StepInput) (w : WatcherState) (out : String)
    (hp : w.phase = .settling out)
    (h : ¬ cfg.IDLE_THRESHOLD ≤ Watcher.idle_for i.now (Watcher.update_idle cfg i w)) :
    Watcher.step cfg i w =
      ({ Watcher.update_idle cfg i w with phase := .settling out }, []) := by
  simp [Watcher.step, hp, h]

/-- Helper: on the concrete fixture the captured pane tail matches the
stored snapshot, so the idle tracker is left unchanged. -/
theorem update_idle_fixture :
    Watcher.update_idle cfgEx inpGo wSettlingStopEx = wSettlingStopEx := by
  simp only [Watcher.update_idle, tmuxTail, pySliceLast]
  norm_num [wSettlingStopEx, inpGo, cfgEx, Watcher.init]
  decide

/-- Helper: on the concrete fixture the idle threshold is met. -/
theorem settle_cond_fixture :
    cfgEx.IDLE_THRESHOLD ≤
      Watcher.idle_for inpGo.now (Watcher.update_idle cfgEx inpGo wSettlingStopEx) := by
  rw [update_idle_fixture]
  show (3 : ℚ) ≤ 5 - 0
  norm_num

/-- C3 (counterexample).  With a stop request already pending while the
loop is settling, the cycle is not abandoned: the settling step
proceeds to the deciding phase, the decision service's answer is then
consumed and its command injected, and the loop returns to the idle
phase instead of transitioning directly to a stopped state. -/
theorem c3_counterexample :
    wSettlingStopEx.stopRequested = true ∧
    (Watcher.step cfgEx inpGo wSettlingStopEx).1.phase = .deciding "out" ∧
    (Watcher.step cfgEx inpGo (Watcher.step cfgEx inpGo wSettlingStopEx).1).2 =
      [PaneAction.sendKeys "go" true] ∧
    (Watcher.step cfgEx inpGo (Watcher.step cfgEx inpGo wSettlingStopEx).1).1.phase =
      .idle := by
  have h1 := step_settling_exit cfgEx inpGo wSettlingStopEx "out" rfl settle_cond_fixture
  rw [update_idle_fixture] at h1
  refine ⟨rfl, ?_, ?_, ?_⟩
  · rw [h1]
  · rw [h1]; rfl
  · rw [h1]; rfl

/-- C3 (amended).  The stop flag is observed only at the idle
loop-iteration boundary: an idle step with a pending stop request exits
to the stopped phase without dequeuing and without acting, whereas the
waiting, settling, deciding and stopped steps ignore the flag entirely
(their outcome is the same for either flag value, with the flag simply
carried through), so a stop requested mid-cycle takes effect only after
the cycle has finished its wait, settle, decide and inject steps. -/
theorem c3_stop_checked_at_idle_only (cfg : CEnv) (i : StepInput) (w : WatcherState) :
    (w.phase = .idle → w.stopRequested = true →
      Watcher.step cfg i w = ({ w with phase := .stopped }, [])) ∧
    (∀ b, w.phase ≠ .idle →
      Watcher.step cfg i { w with stopRequested := b } =
        ({ (Watcher.step cfg i w).1 with stopRequested := b },
          (Watcher.step cfg i w).2)) := by
  obtain ⟨nm, sp, p, sr, tr, ls, li, evs, snap, ts, ph, st⟩ := w
  constructor
  · intro hp hs
    subst hs
    cases ph with
    | idle => simp [Watcher.step]
    | waiting ev => simp at hp
    | settling out => simp at hp
    | deciding out => simp at hp
    | stopped => simp at hp
  · intro b hp
    cases ph with
    | idle => simp at hp
    | waiting ev => simp [Watcher.step]
    | settling out =>
      simp only [Watcher.step, Watcher.update_idle, Watcher.idle_for]
      split_ifs <;> rfl
    | deciding out =>
      cases h : Watcher.assess i <;> simp [Watcher.step, h]
    | stopped => simp [Watcher.step]

/-- A watcher parked in the idle phase with a stop request pending. -/
def wIdleStopEx : WatcherState :=
  { Watcher.init "w" "goal" 0 with stopRequested := true }

/-- C3 (witness): the amended statement evaluated on concrete fixtures,
idle-with-stop stepping to stopped. -/
theorem c3_witness :
    Watcher.step cfgEx inpGo wIdleStopEx = ({ wIdleStopEx with phase := .stopped }, []) :=
  (c3_stop_checked_at_idle_only cfgEx inpGo wIdleStopEx).1 rfl rfl

/-- A watcher parked in the idle phase with one queued trigger event. -/
def wIdleEventEx : WatcherState :=
  { Watcher.init "w" "goal" 0 with events := [⟨none⟩] }

/-- C10.  The run loop never reads `paused`: a step's pane actions and
its resulting state apart from the `paused` field are identical for any
two states that differ only in `paused`; in particular a paused idle
watcher with a queued trigger event dequeues it into the waiting phase
exactly as an unpaused one would, so a watcher paused by an earlier
stop decision or by `pause` is re-armed by the next enqueued event and
runs the full cycle. -/
theorem c10_run_ignores_paused (cfg : CEnv) (i : StepInput) (w : WatcherState) (b : Bool) :
    ((Watcher.step cfg i { w with paused := b }).2 = (Watcher.step cfg i w).2) ∧
    ({ (Watcher.step cfg i { w with paused := b }).1 with paused := false } =
      { (Watcher.step cfg i w).1 with paused := false }) ∧
    (∀ ev rest, w.phase = .idle → w.stopRequested = false → w.events = ev :: rest →
      Watcher.step cfg i { w with paused := true } =
        ({ w with paused := true, events := rest, phase := .waiting ev }, [])) := by
  obtain ⟨nm, sp, p, sr, tr, ls, li, evs, snap, ts, ph, st⟩ := w
  refine ⟨?_, ?_, fun ev rest hp hs he => ?_⟩
  · cases ph with
    | idle => cases sr <;> cases evs <;> simp [Watcher.step]
    | waiting ev => simp [Watcher.step]
    | settling out =>
      simp only [Watcher.step, Watcher.update_idle, Watcher.idle_for]
      split_ifs <;> rfl
    | deciding out =>
      cases h : Watcher.assess i <;> simp [Watcher.step, h]
    | stopped => simp [Watcher.step]
  · cases ph with
    | idle => cases sr <;> cases evs <;> simp [Watcher.step]
    | waiting ev => simp [Watcher.step]
    | settling out =>
      simp only [Watcher.step, Watcher.update_idle, Watcher.idle_for]
      split_ifs <;> rfl
    | deciding out =>
      cases h : Watcher.assess i <;> simp [Watcher.step, h]
    | stopped => simp [Watcher.step]
  · simp only at hp hs he
    subst hs he
    cases ph with
    | idle => simp [Watcher.step]
    | waiting ev => simp at hp
    | settling out => simp at hp
    | deciding out => simp at hp
    | stopped => simp at hp

/-- C10 (witness): a paused idle watcher with a queued event dequeues
it into the waiting phase. -/
theorem c10_witness :
    Watcher.step cfgEx inpGo { wIdleEventEx with paused := true } =
      ({ wIdleEventEx with paused := true, events := [], phase := .waiting ⟨none⟩ }, []) :=
  (c10_run_ignores_paused cfgEx inpGo wIdleEventEx true).2.2 ⟨none⟩ [] rfl rfl rfl

/-- C9.  A settling step exits the spin exactly when the measured
idle time reaches the threshold; at the exit tick the clock is at least
the last observed change timestamp plus the threshold (so given a pane
whose last observed change happened at time T, the spin cannot exit
before T plus the threshold), and the exit appends exactly one
idle-spin entry recording the measured idle time, while a non-exit tick
appends nothing; finally, any lower bound on both the stored
last-change timestamp and the current clock is preserved by the step,
which lets the exit bound be chained through earlier ticks of the same
spin. -/
theorem c9_settle_threshold (cfg : CEnv) (i : StepInput) (w : WatcherState) (out : String)
    (hp : w.phase = .settling out) :
    (((Watcher.step cfg i w).1.phase = .deciding out) ↔
      cfg.IDLE_THRESHOLD ≤ Watcher.idle_for i.now (Watcher.update_idle cfg i w)) ∧
    (cfg.IDLE_THRESHOLD ≤ Watcher.idle_for i.now (Watcher.update_idle cfg i w) →
      (Watcher.step cfg i w).1.transcript =
        w.transcript ++
          [⟨.idle_spin,
            "idle_for=" ++ fmt2 (Watcher.idle_for i.now (Watcher.update_idle cfg i w)),
            i.now⟩] ∧
      (Watcher.update_idle cfg i w).last_change_ts + cfg.IDLE_THRESHOLD ≤ i.now) ∧
    (¬ cfg.IDLE_THRESHOLD ≤ Watcher.idle_for i.now (Watcher.update_idle cfg i w) →
      (Watcher.step cfg i w).1.transcript = w.transcript ∧
      (Watcher.step cfg i w).1.phase = .settling out) ∧
    (∀ t : ℚ, t ≤ w.last_change_ts → t ≤ i.now →
      t ≤ (Watcher.step cfg i w).1.last_change_ts) := by
  have htr : (Watcher.update_idle cfg i w).transcript = w.transcript := by
    rw [update_idle_eq]
    split_ifs <;> rfl
  refine ⟨?_, fun h => ⟨?_, ?_⟩, fun h => ⟨?_, ?_⟩, fun t h1 h2 => ?_⟩
  · constructor
    · intro hph
      by_contra h
      simp only [Watcher.step, hp] at hph
      rw [if_neg h] at hph
      simp at hph
    · intro h
      rw [step_settling_exit cfg i w out hp h]
  · rw [step_settling_exit cfg i w out hp h, htr]
  · have := Watcher.idle_for i.now (Watcher.update_idle cfg i w)
    unfold Watcher.idle_for at h
    linarith
  · simp only [Watcher.step, hp]
    rw [if_neg h, htr]
  · simp only [Watcher.step, hp]
    rw [if_neg h]
  · have hts : t ≤ (Watcher.update_idle cfg i w).last_change_ts := by
      rw [update_idle_eq]
      split_ifs
      · exact h2
      · exact h1
    by_cases hc : cfg.IDLE_THRESHOLD ≤ Watcher.idle_for i.now (Watcher.update_idle cfg i w)
    · rw [step_settling_exit cfg i w out hp hc]
      exact hts
    · rw [step_settling_spin cfg i w out hp hc]
      exact hts

/-- C9 (witness): on the concrete fixture the settling step exits,
appending the single idle-spin entry, and the exit tick is no earlier
than the last-change timestamp plus the threshold. -/
theorem c9_witness :
    (Watcher.step cfgEx inpGo wSettlingStopEx).1.transcript =
      wSettlingStopEx.transcript ++
        [⟨.idle_spin,
          "idle_for=" ++
            fmt2 (Watcher.idle_for inpGo.now (Watcher.update_idle cfgEx inpGo wSettlingStopEx)),
          inpGo.now⟩] ∧
    (Watcher.update_idle cfgEx inpGo wSettlingStopEx).last_change_ts + cfgEx.IDLE_THRESHOLD ≤
      inpGo.now :=
  (c9_settle_threshold cfgEx inpGo wSettlingStopEx "out" rfl).2.1 settle_cond_fixture

/-- Helper: let-free unfolding of `Watcher.add_status`. -/
theorem add_status_eq (cfg : CEnv) (st : String) (now : ℚ) (w : WatcherState) :
    Watcher.add_status cfg st now w =
      { w with
        latest_status := st
        transcript :=
          if cfg.MAX_TRANSCRIPT <
              (w.transcript ++ [(⟨.status, st, now⟩ : TranscriptEntry)]).length then
            pySliceLast cfg.MAX_TRANSCRIPT
              (w.transcript ++ [(⟨.status, st, now⟩ : TranscriptEntry)])
          else w.transcript ++ [(⟨.status, st, now⟩ : TranscriptEntry)] } := rfl

/-- A two-entry transcript at the cap of `cfgCap2`: the initial plan
entry plus one status report. -/
def wTwoEx : WatcherState :=
  Watcher.add_status cfgCap2 "s1" 1 (Watcher.init "w" "goal" 0)

/-- C2 (counterexample).  With the cap at 2 and the transcript already
holding 2 entries, a plan append (`update_plan`) leaves 3 entries: the
appends done outside `add_status` are not followed by any trimming, so
the entry count exceeds the cap after they complete. -/
theorem c2_counterexample :
    cfgCap2.MAX_TRANSCRIPT = 2 ∧
    wTwoEx.transcript.length = 2 ∧
    (Watcher.update_plan "new goal" 2 wTwoEx).transcript.length = 3 := by
  refine ⟨rfl, rfl, rfl⟩

/-- C2 (amended).  Trimming happens only inside `add_status`: for a
positive cap C, a status append leaves exactly the most recent
min(n+1, C) entries in original order (the append followed by dropping
from the front down to the cap), so the entry count never exceeds C
after a status append completes; appends from the run loop,
`update_plan` and `pause` never trim, and can leave the transcript
above the cap until the next status append. -/
theorem c2_status_append_trims (cfg : CEnv) (st : String) (now : ℚ) (w : WatcherState)
    (hC : 0 < cfg.MAX_TRANSCRIPT) :
    (Watcher.add_status cfg st now w).transcript =
      (w.transcript ++ [(⟨.status, st, now⟩ : TranscriptEntry)]).drop
        (w.transcript.length + 1 - cfg.MAX_TRANSCRIPT) ∧
    (Watcher.add_status cfg st now w).transcript.length ≤ cfg.MAX_TRANSCRIPT := by
  rw [add_status_eq]
  have hlen : (w.transcript ++ [(⟨.status, st, now⟩ : TranscriptEntry)]).length =
      w.transcript.length + 1 := by simp
  dsimp only
  split_ifs with h
  · rw [hlen] at h
    unfold pySliceLast
    rw [if_neg (Nat.pos_iff_ne_zero.mp hC), hlen]
    refine ⟨rfl, ?_⟩
    rw [List.length_drop, hlen]
    omega
  · rw [hlen] at h
    have hz : w.transcript.length + 1 - cfg.MAX_TRANSCRIPT = 0 := by omega
    rw [hz, List.drop_zero]
    refine ⟨rfl, ?_⟩
    rw [hlen]
    omega

/-- C2 (witness): the amended statement evaluated on the two-entry
fixture at cap 2. -/
theorem c2_witness :
    (Watcher.add_status cfgCap2 "s2" 2 wTwoEx).transcript =
      (wTwoEx.transcript ++ [(⟨.status, "s2", 2⟩ : TranscriptEntry)]).drop
        (wTwoEx.transcript.length + 1 - cfgCap2.MAX_TRANSCRIPT) ∧
    (Watcher.add_status cfgCap2 "s2" 2 wTwoEx).transcript.length ≤ cfgCap2.MAX_TRANSCRIPT :=
  c2_status_append_trims cfgCap2 "s2" 2 wTwoEx (by decide)

/-- A watcher whose stored snapshot is the nonempty string "x". -/
def wSnapEx : WatcherState :=
  { Watcher.init "w" "goal" 0 with last_snapshot := "x" }

/-- Step input whose pane capture raises a driver error. -/
def inpFail : StepInput :=
  { now := 7
    capture := .err
    waitOutput := ""
    assess := { action := .stop, injection_prompt := none } }

/-- C4 (counterexample).  A failed capture is not a no-change tick when
the stored snapshot is nonempty: the tick replaces the snapshot "x"
with the empty string and resets the last-change timestamp from 0 to
the current clock 7. -/
theorem c4_counterexample :
    wSnapEx.last_snapshot = "x" ∧ wSnapEx.last_change_ts = 0 ∧
    (Watcher.update_idle cfgEx inpFail wSnapEx).last_snapshot = "" ∧
    (Watcher.update_idle cfgEx inpFail wSnapEx).last_change_ts = 7 := by
  refine ⟨rfl, rfl, rfl, rfl⟩

/-- C4 (amended).  A capture failure never crashes the tick — the tail
helper catches the exception and returns the empty string — but it is
treated as the pane text having become empty rather than as "no
detectable change": when the stored snapshot is nonempty the snapshot
is replaced by the empty string and the last-change timestamp resets to
now; only when the stored snapshot is already empty does the tick leave
the idle-tracking state unchanged. -/
theorem c4_capture_failure (cfg : CEnv) (i : StepInput) (w : WatcherState)
    (hc : i.capture = .err) :
    tmuxTail i.capture cfg.TAIL_LINES = "" ∧
    Watcher.update_idle cfg i w =
      (if w.last_snapshot = "" then w
       else { w with last_snapshot := "", last_change_ts := i.now }) := by
  have ht : tmuxTail i.capture cfg.TAIL_LINES = "" := by rw [hc]; rfl
  refine ⟨ht, ?_⟩
  rw [update_idle_eq, ht]
  by_cases hs : w.last_snapshot = ""
  · rw [if_neg (show ¬("" ≠ w.last_snapshot) from fun hcon => hcon hs.symm), if_pos hs]
  · rw [if_pos (show ("" : String) ≠ w.last_snapshot from fun hcon => hs hcon.symm),
      if_neg hs]

/-- C4 (witness): the amended statement evaluated on the nonempty
snapshot fixture with a failing capture. -/
theorem c4_witness :
    tmuxTail inpFail.capture cfgEx.TAIL_LINES = "" ∧
    Watcher.update_idle cfgEx inpFail wSnapEx =
      (if wSnapEx.last_snapshot = "" then wSnapEx
       else { wSnapEx with last_snapshot := "", last_change_ts := 7 }) :=
  c4_capture_failure cfgEx inpFail wSnapEx rfl

/-- Helper: lookup misses every key absent from the association list. -/
theorem dictGet_eq_none_of_not_mem (d : List (String × α)) (k : String)
    (h : k ∉ d.map Prod.fst) : dictGet d k = none := by
  induction d with
  | nil => rfl
  | cons p rest ih =>
    obtain ⟨k', v⟩ := p
    simp only [List.map_cons, List.mem_cons] at h
    push_neg at h
    simp only [dictGet]
    rw [if_neg (fun he => h.1 he.symm)]
    exact ih h.2

/-- Helper: removing a key from a duplicate-free association list makes
its lookup miss. -/
theorem dictGet_dictRemove_self (d : List (String × α)) (k : String)
    (h : (d.map Prod.fst).Nodup) : dictGet (dictRemove d k) k = none := by
  induction d with
  | nil => rfl
  | cons p rest ih =>
    obtain ⟨k', v⟩ := p
    simp only [List.map_cons, List.nodup_cons] at h
    by_cases hk : k' = k
    · subst hk
      simp only [dictRemove, if_pos rfl]
      exact dictGet_eq_none_of_not_mem rest k' h.1
    · simp only [dictRemove, if_neg hk, dictGet]
      exact ih h.2

/-- A registry holding one live watcher under the key "A" and a stale
last-active entry pointing the client "c" at the cleared key "B". -/
def momStaleEx : MomState :=
  { watchers := [("A", Watcher.init "A" "goal" 0)]
    last_by_client := [("c", "B")] }

/-- C5 (counterexample).  Resolution does not fall through past a stale
remembered key: although a live watcher ("A") exists, a key-less
record-status call from client "c" resolves to the cleared key "B" and
fails with its lookup error instead of reaching the live watcher. -/
theorem c5_counterexample :
    momStaleEx.watchers ≠ [] ∧
    Mom.look_ma cfgEx (some "c") "report" none none 3 momStaleEx =
      .error ("KeyError: " ++ "B") := by
  refine ⟨by simp [momStaleEx], rfl⟩

/-- C5 (amended).  When the caller's remembered last-active key refers
to a cleared watcher, resolution returns that stale key anyway (it does
not fall through), and the key-less record-status call fails with the
lookup error for the stale key — even when live watchers exist; no
watcher is created. -/
theorem c5_stale_key_not_tolerated (cfg : CEnv) (m : MomState) (cid key st : String)
    (bw : Option String) (now : ℚ)
    (hcid : cid ≠ "")
    (hmem : dictGet m.last_by_client cid = some key)
    (habs : dictGet m.watchers key = none) :
    Mom.resolve_window m (some cid) none = .ok key ∧
    Mom.look_ma cfg (some cid) st none bw now m = .error ("KeyError: " ++ key) := by
  have hres : Mom.resolve_window m (some cid) none = .ok key := by
    simp [Mom.resolve_window, hcid, hmem]
  refine ⟨hres, ?_⟩
  simp [Mom.look_ma, hres, habs]

/-- C5 (witness): the amended statement evaluated on the stale-entry
fixture. -/
theorem c5_witness :
    Mom.resolve_window momStaleEx (some "c") none = .ok "B" ∧
    Mom.look_ma cfgEx (some "c") "report" none none 3 momStaleEx =
      .error ("KeyError: " ++ "B") :=
  c5_stale_key_not_tolerated cfgEx momStaleEx "c" "B" "report" none 3 (by decide) rfl rfl

/-- An empty registry. -/
def momEmptyEx : MomState :=
  { watchers := [], last_by_client := [] }

/-- C6 (counterexample).  Attaching a fresh session key answers the
string "watching", not "attached". -/
theorem c6_counterexample :
    (Mom.watch_me "w1" "goal" 0 momEmptyEx).1 = "watching" ∧
    "watching" ≠ "attached" := by
  refine ⟨rfl, by decide⟩

/-- C6 (amended).  Attach with a fresh key constructs a new watcher
(started, seeded with the plan entry) and answers "watching" (not
"attached" as specified); attach with an existing key answers
"updated", replacing the goal text in place and appending a plan entry
to the same watcher, whose started flag is untouched (the loop is not
restarted). -/
theorem c6_watch_me (tmux_window strategy_plan : String) (now : ℚ) (m : MomState) :
    (dictGet m.watchers tmux_window = none →
      Mom.watch_me tmux_window strategy_plan now m =
        ("watching",
          { m with watchers := (dictSet m.watchers tmux_window
              { Watcher.init tmux_window strategy_plan now with started := true }) })) ∧
    (∀ w, dictGet m.watchers tmux_window = some w →
      Mom.watch_me tmux_window strategy_plan now m =
        ("updated",
          { m with watchers := (dictSet m.watchers tmux_window
              (Watcher.update_plan strategy_plan now w)) }) ∧
      (Watcher.update_plan strategy_plan now w).started = w.started ∧
      (Watcher.update_plan strategy_plan now w).strategy_plan = strategy_plan ∧
      (Watcher.update_plan strategy_plan now w).transcript =
        w.transcript ++ [(⟨.plan, strategy_plan, now⟩ : TranscriptEntry)]) := by
  constructor
  · intro h
    simp [Mom.watch_me, h]
  · intro w h
    refine ⟨?_, rfl, rfl, rfl⟩
    simp [Mom.watch_me, h]

/-- C6 (witness): the amended statement evaluated on the empty
registry. -/
theorem c6_witness :
    Mom.watch_me "w1" "goal" 0 momEmptyEx =
      ("watching",
        { momEmptyEx with watchers := (dictSet momEmptyEx.watchers "w1"
            { Watcher.init "w1" "goal" 0 with started := true }) }) :=
  (c6_watch_me "w1" "goal" 0 momEmptyEx).1 rfl

/-- C8.  Clearing a registered key signals its watcher to stop and
removes it from the mapping, answering "cleared"; an immediately
repeated clear answers "noop" and changes nothing; and a subsequent
record-status addressed explicitly to the cleared key fails with its
lookup error (no watcher is silently created). -/
theorem c8_clear_idempotent (cfg : CEnv) (m : MomState) (key st : String)
    (bw : Option String) (now : ℚ) (w : WatcherState)
    (hw : dictGet m.watchers key = some w)
    (hnodup : (m.watchers.map Prod.fst).Nodup)
    (hkey : key ≠ "") :
    Mom.clear key m =
      ("cleared", { m with watchers := dictRemove m.watchers key },
        some (Watcher.clear w)) ∧
    (Watcher.clear w).stopRequested = true ∧
    dictGet (dictRemove m.watchers key) key = none ∧
    Mom.clear key { m with watchers := dictRemove m.watchers key } =
      ("noop", { m with watchers := dictRemove m.watchers key }, none) ∧
    Mom.look_ma cfg none st (some key) bw now
        { m with watchers := dictRemove m.watchers key } =
      .error ("KeyError: " ++ key) := by
  have habs : dictGet (dictRemove m.watchers key) key = none :=
    dictGet_dictRemove_self m.watchers key hnodup
  refine ⟨?_, rfl, habs, ?_, ?_⟩
  · simp [Mom.clear, hw]
  · simp [Mom.clear, habs]
  · simp [Mom.look_ma, Mom.resolve_window, hkey, habs]

/-- A registry holding one watcher under the key "A". -/
def momOneEx : MomState :=
  { watchers := [("A", Watcher.init "A" "goal" 0)], last_by_client := [] }

/-- C8 (witness): the clear sequence evaluated on the one-watcher
registry. -/
theorem c8_witness :
    Mom.clear "A" momOneEx =
      ("cleared", { momOneEx with watchers := dictRemove momOneEx.watchers "A" },
        some (Watcher.clear (Watcher.init "A" "goal" 0))) ∧
    (Watcher.clear (Watcher.init "A" "goal" 0)).stopRequested = true ∧
    dictGet (dictRemove momOneEx.watchers "A") "A" = none ∧
    Mom.clear "A" { momOneEx with watchers := dictRemove momOneEx.watchers "A" } =
      ("noop", { momOneEx with watchers := dictRemove momOneEx.watchers "A" }, none) ∧
    Mom.look_ma cfgEx none "st" (some "A") none 3
        { momOneEx with watchers := dictRemove momOneEx.watchers "A" } =
      .error ("KeyError: " ++ "A") :=
  c8_clear_idempotent cfgEx momOneEx "A" "st" none 3 (Watcher.init "A" "goal" 0) rfl
    (by simp [momOneEx]) (by decide)
